import Mathlib

/-!
# Verification of the go-loadgen rate-controlled dispatch engine

Shallow embedding of the load-generation engine: the rate scheduler
(`calculateInterval`), the ramping rate state machine of
`RampingExecutor.Execute`, the workload pattern generator
(`GenerateWorkload` and its helpers), and the configuration validation of
`NewEndpointWorkload` / the phase-type dispatch of `EndpointWorkload.Run`.

Conventions of the embedding:
* Go `time.Duration` and `int` values are modelled as `Int` (Go's int64 /
  Duration are 64-bit; none of the verified properties involve overflow,
  every quantity stays far below 2^63).
* Go integer division truncates toward zero, so it is modelled by
  `Int.tdiv`; a Go division by zero is a runtime panic and is modelled by
  an explicit `none` / `panic` constructor.
* Go `float64` values are modelled by their exact values as fractions
  (`Frac`, an integer numerator over a positive denominator); every
  finite float64 is such a dyadic rational, and float64 comparisons
  coincide with exact value comparisons. The weight accumulation
  `total += pattern.Weight` is modelled faithfully: every step applies
  IEEE-754 binary64 round-to-nearest-even (`roundF64`), overflowing to
  ±∞, so rounding effects — such as five weights of 0.2 accumulating to
  exactly 1.0 although their exact sum is 1 + 2⁻⁵⁴ — are reproduced.
  The float-to-integer conversion `time.Duration(x)` truncates toward
  zero (`Frac.trunc`). The one remaining float64 product,
  `float64(maxDuration) * weight` in the allocation step, is kept exact:
  no claim depends on its rounding, and at every weight exercised by a
  theorem in this file the rounded product coincides with the exact one.
* The `math/rand/v2` PCG source created by `rand.New(rand.NewPCG(seed,
  seed))` is abstracted as a deterministic stream of raw draws (`Rng`): a
  pure function of the seed and the draw position.  None of the verified
  claims depend on the concrete output values of the PCG, only on the
  stream being a deterministic function of the seed and on the range
  contracts of `IntN`/`Float64`; theorems about the generator quantify
  over an arbitrary stream wherever possible.
-/

namespace GoLoadgen

/-- `MIN_INTERVAL = 10 * time.Millisecond` from executor.go, in nanoseconds. -/
def MIN_INTERVAL : Int := 10000000

/-- `time.Second` in nanoseconds. -/
def nsPerSecond : Int := 1000000000

/-- Embedding of `calculateInterval` (executor.go):

    interval := max(time.Second/time.Duration(rps), MIN_INTERVAL)
    restRPS := rps / int(time.Second/interval)

Both divisions are Go integer divisions (truncation toward zero).  The
first division panics when `rps = 0`, modelled as `none`.  The second
divisor `time.Second/interval` is never zero because `interval ≥
MIN_INTERVAL > 0` and `interval ≤ time.Second` is not required for
non-zeroness (`nsPerSecond.tdiv interval ≥ 1` whenever `interval ≤
nsPerSecond`, and for `rps ≠ 0` the computed interval lies in
`[MIN_INTERVAL, nsPerSecond]`). -/
def calculateInterval (rps : Int) : Option (Int × Int) :=
  if rps = 0 then none
  else
    let interval := max (nsPerSecond.tdiv rps) MIN_INTERVAL
    let restRPS := rps.tdiv (nsPerSecond.tdiv interval)
    some (interval, restRPS)

/-- On natural-number rates below the threshold, `calculateInterval`
reduces to natural-number division. -/
theorem calculateInterval_natCast_low : ∀ n : Nat, n < 100 →
    calculateInterval ((n : Int) + 1) =
      some (nsPerSecond.tdiv ((n : Int) + 1), 1) := by decide

/-- On natural-number rates at or above the threshold the interval is
clamped to `MIN_INTERVAL` and the per-tick count is `n / 100`. -/
theorem calculateInterval_natCast_high (n : Nat) (h : 100 ≤ n) :
    calculateInterval (n : Int) = some (MIN_INTERVAL, ((n / 100 : Nat) : Int)) := by
  have hdivle : (1000000000 : Nat) / n ≤ 10000000 := by
    calc (1000000000 : Nat) / n ≤ 1000000000 / 100 :=
          Nat.div_le_div_left h (by norm_num)
      _ = 10000000 := by norm_num
  have hne : (n : Int) ≠ 0 := by omega
  have htd : nsPerSecond.tdiv (n : Int) = ((1000000000 / n : Nat) : Int) := rfl
  have hmax : max (nsPerSecond.tdiv (n : Int)) MIN_INTERVAL = MIN_INTERVAL := by
    rw [htd]
    apply max_eq_right
    show ((1000000000 / n : Nat) : Int) ≤ (10000000 : Int)
    exact_mod_cast hdivle
  simp only [calculateInterval, hne, if_false, hmax]
  have hinner : nsPerSecond.tdiv MIN_INTERVAL = (100 : Int) := rfl
  rw [hinner]
  congr 1

/-- C1: for every integer `targetRPS` with `1 ≤ targetRPS ≤ 100`,
`calculateInterval targetRPS` returns a tick interval equal to one second
divided by `targetRPS` (Go integer division of `time.Duration`) and a
per-tick count of 1; for every `targetRPS ≥ 100` it returns a 10 ms tick
interval and a per-tick count of `targetRPS / 100`; in particular the six
listed concrete values hold. -/
theorem claim_C1_calculateInterval :
    (∀ rps : Int, 1 ≤ rps → rps ≤ 100 →
       calculateInterval rps = some (nsPerSecond.tdiv rps, 1)) ∧
    (∀ rps : Int, 100 ≤ rps →
       calculateInterval rps = some (MIN_INTERVAL, rps.tdiv 100)) ∧
    calculateInterval 4 = some (250000000, 1) ∧
    calculateInterval 10 = some (100000000, 1) ∧
    calculateInterval 20 = some (50000000, 1) ∧
    calculateInterval 50 = some (20000000, 1) ∧
    calculateInterval 100000000 = some (10000000, 1000000) ∧
    calculateInterval 10000000 = some (10000000, 100000) := by
  refine ⟨?_, ?_, by decide, by decide, by decide, by decide, by decide, by decide⟩
  · intro rps h1 h2
    have hrw : rps = (((rps - 1).toNat : Nat) : Int) + 1 := by omega
    rw [hrw]
    exact calculateInterval_natCast_low _ (by omega)
  · intro rps h
    have hrw : rps = ((rps.toNat : Nat) : Int) := by omega
    rw [hrw, calculateInterval_natCast_high _ (by omega)]
    rfl

/-- Witness for C1: both universally quantified parts applied at concrete
inputs (7 for the low branch, 250 for the clamped branch), hypotheses
discharged there. -/
theorem claim_C1_calculateInterval_witness :
    calculateInterval 7 = some (nsPerSecond.tdiv 7, 1) ∧
    calculateInterval 250 = some (MIN_INTERVAL, Int.tdiv 250 100) :=
  ⟨claim_C1_calculateInterval.1 7 (by decide) (by decide),
   claim_C1_calculateInterval.2.1 250 (by decide)⟩

/-! ## Phases and the two executors -/

/-- `TestPhase` (workload.go): one time-boxed segment of the workload.
`StartTime` and `Duration` are `time.Duration` nanosecond counts. The
`Endpoint` field is carried by the Go struct but never read by the code
under verification, so it is omitted. -/
structure TestPhase where
  name : String
  type : String
  startTime : Int
  duration : Int
  startRPS : Int
  endRPS : Int
  step : Int
deriving DecidableEq

/-- The single argument `ConstantExecutor.Execute` passes to
`calculateInterval` (executor.go: `e.rps = phase.StartRPS` followed by
`calculateInterval(e.rps)`); the value is not clamped. -/
def constantExecutorRateArg (phase : TestPhase) : Int := phase.startRPS

/-- Initial `currentRPS` of `RampingExecutor.Execute` (executor.go:
`currentRPS := &e.startRPS; if *currentRPS == 0 { *currentRPS = 1 }`). -/
def rampInit (startRPS : Int) : Int := if startRPS = 0 then 1 else startRPS

/-- `*currentRPS` after the conditional `+= e.step` of one iteration of the
rate-update loop (executor.go): the rate advances only when `first` is
already cleared and the ramp has not reached `endRPS` in the direction
given by `incrementing := e.step > 0`. The state is
`(currentRPS, first)`. -/
def rampNext (endRPS step : Int) (s : Int × Bool) : Int :=
  if s.2 = false ∧ ((0 < step ∧ s.1 < endRPS) ∨ (¬ 0 < step ∧ s.1 > endRPS))
  then s.1 + step else s.1

/-- One iteration of the rate-update loop of `RampingExecutor.Execute`:
after the conditional advance, `if *currentRPS <= 0 { break }` skips both
the `first = false` assignment and the `calculateInterval` call, so a
non-positive rate leaves `first` unchanged. -/
def rampTick (endRPS step : Int) (s : Int × Bool) : Int × Bool :=
  if rampNext endRPS step s ≤ 0 then (rampNext endRPS step s, s.2)
  else (rampNext endRPS step s, false)

/-- `(currentRPS, first)` after `k` firings of the 1-second rate-update
ticker of `RampingExecutor.Execute` on the given phase. -/
def rampState (phase : TestPhase) : Nat → Int × Bool
  | 0 => (rampInit phase.startRPS, true)
  | k+1 => rampTick phase.endRPS phase.step (rampState phase k)

/-- Arguments the rate-update loop passes to `calculateInterval` during
the first `k` ticks: tick `j+1` calls it with the updated rate unless that
rate is `≤ 0`, in which case the `break` skips the call. -/
def rampLoopCallArgs (phase : TestPhase) (k : Nat) : List Int :=
  (List.range k).filterMap (fun j =>
    if (rampState phase (j+1)).1 ≤ 0 then none
    else some (rampState phase (j+1)).1)

/-- All arguments `RampingExecutor.Execute` passes to `calculateInterval`
within the first `k` rate-update ticks: the pre-loop call with the clamped
initial rate (executor.go:120), then the per-tick calls. -/
def rampCallArgs (phase : TestPhase) (k : Nat) : List Int :=
  rampInit phase.startRPS :: rampLoopCallArgs phase k

/-- Reference ramp transition exactly as claim C4 states it: on a
non-first tick the rate advances by `step` iff the ramp has not yet
reached `endRPS` in the configured direction (`currentRPS < endRPS` when
incrementing, i.e. `step > 0`; `currentRPS > endRPS` when
decrementing). -/
def specRampStep (endRPS step rps : Int) : Int :=
  if (0 < step ∧ rps < endRPS) ∨ (¬ 0 < step ∧ rps > endRPS)
  then rps + step else rps

/-- Reference rate after `k` ticks as claim C4 states it: the initial rate
is `startRPS` (`1` when `startRPS = 0`), the first tick never changes it,
and every later tick applies `specRampStep`. -/
def specRampVal (phase : TestPhase) : Nat → Int
  | 0 => rampInit phase.startRPS
  | 1 => rampInit phase.startRPS
  | k+2 => specRampStep phase.endRPS phase.step (specRampVal phase (k+1))

theorem rampNext_first_false (endRPS step v : Int) :
    rampNext endRPS step (v, false) = specRampStep endRPS step v := by
  simp [rampNext, specRampStep]

theorem rampTick_first_false (endRPS step v : Int) :
    rampTick endRPS step (v, false) = (specRampStep endRPS step v, false) := by
  by_cases h : rampNext endRPS step (v, false) ≤ 0 <;>
    simp [rampTick, h, rampNext_first_false]

theorem rampState_succ_closed (phase : TestPhase) (h : 0 ≤ phase.startRPS) :
    ∀ k, rampState phase (k+1) = (specRampVal phase (k+1), false) := by
  have hinit : 0 < rampInit phase.startRPS := by
    unfold rampInit; split <;> omega
  intro k
  induction k with
  | zero =>
    show rampTick phase.endRPS phase.step (rampInit phase.startRPS, true) = _
    have hnext : rampNext phase.endRPS phase.step (rampInit phase.startRPS, true) =
        rampInit phase.startRPS := by
      simp [rampNext]
    rw [rampTick, hnext, if_neg (by omega)]
    rfl
  | succ n ih =>
    show rampTick phase.endRPS phase.step (rampState phase (n+1)) = _
    rw [ih, rampTick_first_false]
    rfl

/-- C4 fails as stated: on a phase with a negative `StartRPS` the `break`
taken while `*currentRPS ≤ 0` prevents `first` from ever being cleared, so
the code never advances the rate, while the claim's reference definition
advances it on the second tick (`-5 < 10` with `step = 2`). After two
ticks the code holds `-5`, the reference holds `-3`. -/
theorem claim_C4_counterexample :
    (rampState ⟨"p", "variable", 0, 1000000000, -5, 10, 2⟩ 2).1 = -5 ∧
    specRampVal ⟨"p", "variable", 0, 1000000000, -5, 10, 2⟩ 2 = -3 ∧
    ((-5 : Int) = -3 → False) := by decide

/-- C4 (amended): for every phase with `StartRPS ≥ 0`, the ramping rate
state machine of `RampingExecutor.Execute` equals the claim's reference
definition at every tick: the initial `currentRPS` is `StartRPS` (or `1`
when `StartRPS = 0`), the first tick never changes it, and every later
tick advances it by `step` iff the ramp has not yet reached `EndRPS` in
the direction given by `step > 0`. (For `StartRPS < 0` the code instead
never advances the rate, see the counterexample.) -/
theorem claim_C4_rampStateMachine (phase : TestPhase) (h : 0 ≤ phase.startRPS)
    (k : Nat) : (rampState phase k).1 = specRampVal phase k := by
  cases k with
  | zero => rfl
  | succ n => rw [rampState_succ_closed phase h n]

/-- Witness for C4 (amended): the equality at a concrete decrementing
phase (`StartRPS = 3`, `EndRPS = 1`, `step = -1`) after 5 ticks. -/
theorem claim_C4_rampStateMachine_witness :
    (rampState ⟨"p", "variable", 0, 1000000000, 3, 1, -1⟩ 5).1 =
      specRampVal ⟨"p", "variable", 0, 1000000000, 3, 1, -1⟩ 5 :=
  claim_C4_rampStateMachine _ (by decide) 5

/-- C3 fails as stated: `ConstantExecutor.Execute` passes
`phase.StartRPS` to `calculateInterval` without clamping, so a constant
phase with `StartRPS = 0` passes `0` (violating "every argument is at
least 1") and the division `time.Second / targetRPS` inside
`calculateInterval` is a division by zero (modelled as `none`). -/
theorem claim_C3_counterexample :
    constantExecutorRateArg ⟨"p", "constant", 0, 1000000000, 0, 0, 0⟩ = 0 ∧
    ((1 : Int) ≤ constantExecutorRateArg ⟨"p", "constant", 0, 1000000000, 0, 0, 0⟩ → False) ∧
    calculateInterval (constantExecutorRateArg ⟨"p", "constant", 0, 1000000000, 0, 0, 0⟩) = none := by
  decide

/-- C3 (amended): the executors never pass a rate below 1 to
`calculateInterval` under the following conditions — `ConstantExecutor`
only on phases with `StartRPS ≥ 1` (it passes `StartRPS` unclamped), and
`RampingExecutor` on every phase with `StartRPS ≥ 0` (the initial value is
clamped to 1 at zero and the in-loop `≤ 0` guard skips the call); any rate
`≥ 1` makes the division inside `calculateInterval` well defined. -/
theorem claim_C3_noDivByZero :
    (∀ phase : TestPhase, 1 ≤ phase.startRPS → 1 ≤ constantExecutorRateArg phase) ∧
    (∀ phase : TestPhase, 0 ≤ phase.startRPS →
       ∀ k, ∀ a ∈ rampCallArgs phase k, 1 ≤ a) ∧
    (∀ rps : Int, 1 ≤ rps → calculateInterval rps ≠ none) := by
  refine ⟨fun phase h => h, ?_, ?_⟩
  · intro phase h k a ha
    cases ha with
    | head => unfold rampInit; split <;> omega
    | tail _ hmem =>
      obtain ⟨j, -, hj⟩ := List.mem_filterMap.mp hmem
      by_cases hle : (rampState phase (j+1)).1 ≤ 0 <;> simp [hle] at hj
      omega
  · intro rps h
    unfold calculateInterval
    rw [if_neg (by omega)]
    exact Option.some_ne_none _

/-- Witness for C3 (amended): all three parts applied at concrete inputs
— a constant phase with `StartRPS = 2`, a ramping phase with
`StartRPS = 0` observed for 3 ticks, and the rate 5. -/
theorem claim_C3_noDivByZero_witness :
    1 ≤ constantExecutorRateArg ⟨"p", "constant", 0, 1000000000, 2, 0, 0⟩ ∧
    (∀ a ∈ rampCallArgs ⟨"q", "variable", 0, 1000000000, 0, 5, 1⟩ 3, 1 ≤ a) ∧
    calculateInterval 5 ≠ none :=
  ⟨claim_C3_noDivByZero.1 _ (by decide),
   claim_C3_noDivByZero.2.1 _ (by decide) 3,
   claim_C3_noDivByZero.2.2 5 (by decide)⟩

/-! ## The seeded random source and the workload pattern generator -/

/-- Abstraction of the `math/rand/v2` generator created by
`rand.New(rand.NewPCG(uint64(seed), uint64(seed)))`: a deterministic
stream of raw natural-number draws read at a cursor position. The
concrete PCG output permutation is not modelled; every verified claim
about the generator either holds for an arbitrary stream or depends only
on the stream being a pure function of the seed. -/
structure Rng where
  seq : Nat → Nat
  pos : Nat

/-- Exact fraction: numerator over positive denominator, kept unreduced so
every operation is a plain integer computation. A Go `float64` weight or
likelihood value is modelled by the fraction holding its exact value
(every finite float64 is such a dyadic rational); values are always
compared through the value-level relations `Frac.eq` / `Frac.lt`, never
structurally — on float64 values these coincide with the IEEE-754
comparisons, which are exact. Arithmetic whose float64 rounding matters
goes through `roundF64` (see `F64.add`); `Frac.add` / `Frac.mul`
themselves are exact rational operations. -/
structure Frac where
  num : Int
  den : Int
deriving DecidableEq

/-- Value equality of fractions (cross multiplication). -/
def Frac.eq (a b : Frac) : Prop := a.num * b.den = b.num * a.den

instance (a b : Frac) : Decidable (a.eq b) := by unfold Frac.eq; infer_instance

/-- Value order on fractions with positive denominators (cross
multiplication). -/
def Frac.lt (a b : Frac) : Prop := a.num * b.den < b.num * a.den

instance (a b : Frac) : Decidable (a.lt b) := by unfold Frac.lt; infer_instance

/-- Exact rational addition (cross multiplication, unreduced). This is
the exact sum on which `roundF64` applies the binary64 rounding when a
float64 addition is modelled; it is never used bare as a float64
operation. -/
def Frac.add (a b : Frac) : Frac := ⟨a.num * b.den + b.num * a.den, a.den * b.den⟩

/-- Exact rational multiplication. Used for the allocation product
`float64(maxDuration) * weight` of `calculatePatternTimes`, whose
binary64 rounding is not modelled: no claim depends on that rounding,
and at every weight appearing in a theorem of this file (0, 0.7, 0.3)
the rounded product coincides with the exact one. -/
def Frac.mul (a b : Frac) : Frac := ⟨a.num * b.num, a.den * b.den⟩

/-- A whole number as a fraction. -/
def Frac.ofInt (n : Int) : Frac := ⟨n, 1⟩

/-- Go's float64-to-`time.Duration` conversion truncates toward zero. -/
def Frac.trunc (a : Frac) : Int := a.num.tdiv a.den

/-! ### IEEE-754 binary64 rounding

The weight accumulation `total += pattern.Weight` of
`calculatePatternTimes` is float64 arithmetic, so its intermediate sums
round. `roundF64` below implements binary64 round-to-nearest-even over
exact rational values with plain integer computations (so the kernel can
evaluate it): the quantum of the destination binade is `2^(P-52)` for a
value in `[2^P, 2^(P+1))`, floored at the subnormal quantum `2^-1074`;
the scaled value is rounded to the nearest integer with ties to even;
a rounded value of `2^1024` or more overflows to infinity. -/

/-- Number of binary digits of `n` (`0` for `0`), by structural fuel
recursion, 15 bits per step, so that evaluation stays shallow enough for
the kernel (`n` itself is always enough fuel). -/
def bitlenAux : Nat → Nat → Nat
  | 0, _ => 0
  | fuel+1, n =>
    if n = 0 then 0
    else if n < 2 then 1
    else if n < 4 then 2
    else if n < 8 then 3
    else if n < 16 then 4
    else if n < 32 then 5
    else if n < 64 then 6
    else if n < 128 then 7
    else if n < 256 then 8
    else if n < 512 then 9
    else if n < 1024 then 10
    else if n < 2048 then 11
    else if n < 4096 then 12
    else if n < 8192 then 13
    else if n < 16384 then 14
    else if n < 32768 then 15
    else bitlenAux fuel (n / 32768) + 15

def bitlen (n : Nat) : Nat := bitlenAux n n

/-- `2^k`, by the same 15-bits-per-step fuel recursion, keeping kernel
evaluation shallow even at the subnormal scale `2^1074`. -/
def pow2Aux : Nat → Nat → Nat
  | 0, _ => 1
  | fuel+1, k => if k ≤ 15 then 2 ^ k else 32768 * pow2Aux fuel (k - 15)

def pow2 (k : Nat) : Nat := pow2Aux k k

/-- Whether `b · 2^p ≤ a`, i.e. `2^p ≤ a / b`, for a possibly negative
scaling exponent `p`. -/
def pow2ScaleLe (p : Int) (a b : Nat) : Bool :=
  if 0 ≤ p then decide (b * pow2 p.toNat ≤ a)
  else decide (b ≤ a * pow2 (-p).toNat)

/-- Round the positive rational `a / b` (`a, b ≥ 1`) to the nearest
binary64 value, ties to even: `some (m, q)` stands for the value
`m · 2^q` where `2^q` is the quantum of the destination binade (floored
at the subnormal quantum), and `none` is overflow to infinity. `P` is
exactly `⌊log₂ (a/b)⌋`: the bit-length difference `p0` satisfies
`2^(p0-1) < a/b < 2^(p0+1)`, and one comparison settles which side of
`2^p0` the value lies on. -/
def roundPos (a b : Nat) : Option (Nat × Int) :=
  let p0 : Int := (bitlen a : Int) - (bitlen b : Int)
  let P : Int := if pow2ScaleLe p0 a b then p0 else p0 - 1
  let q : Int := max (P - 52) (-1074)
  let nd : Nat × Nat :=
    if 0 ≤ q then (a, b * pow2 q.toNat) else (a * pow2 (-q).toNat, b)
  let m0 := nd.1 / nd.2
  let r := nd.1 % nd.2
  let m : Nat :=
    if 2 * r < nd.2 then m0
    else if nd.2 < 2 * r then m0 + 1
    else if m0 % 2 = 0 then m0 else m0 + 1
  if 0 ≤ q ∧ pow2 1024 ≤ m * pow2 q.toNat then none else some (m, q)

/-- A float64 value arising while accumulating finite weights: a finite
value, held as its exact dyadic value, or an infinity of either sign
(reachable by overflow; from finite inputs the accumulation can produce
no NaN, since an infinite total only ever absorbs further finite
weights). -/
inductive F64 where
  | finite (v : Frac)
  | inf (neg : Bool)
deriving DecidableEq

/-- Binary64 round-to-nearest-even of an exact rational value: nearest
representable value, ties to even, overflow to ±∞; values rounding to a
signed zero are held as the value 0. A `Frac` with a negative
denominator is read by its value; `den = 0` has no float64 counterpart
and maps to 0. -/
def roundF64 (x : Frac) : F64 :=
  let n : Int := if x.den < 0 then -x.num else x.num
  let d : Int := if x.den < 0 then -x.den else x.den
  if d = 0 then .finite ⟨0, 1⟩
  else if n = 0 then .finite ⟨0, 1⟩
  else
    match roundPos n.natAbs d.toNat with
    | none => .inf (decide (n < 0))
    | some md =>
      let v : Int := if n < 0 then -(md.1 : Int) else (md.1 : Int)
      if 0 ≤ md.2 then .finite ⟨v * (pow2 md.2.toNat : Int), 1⟩
      else .finite ⟨v, (pow2 (-md.2).toNat : Int)⟩

/-- One step of Go's `total += pattern.Weight`: IEEE-754 binary64
addition — the exact sum rounded to the nearest representable value,
ties to even, overflowing to infinity. An infinite total absorbs any
further finite weight. -/
def F64.add (a : F64) (w : Frac) : F64 :=
  match a with
  | .inf s => .inf s
  | .finite v => roundF64 (v.add w)

/-- Go's float64 `==` against a small integer constant (`total == 0.0`,
`total == 1.0`): value equality on finite values (signed zeros are
value-equal, as in IEEE-754), false on infinities. -/
def F64.eqInt (a : F64) (n : Int) : Prop :=
  match a with
  | .finite v => v.eq (Frac.ofInt n)
  | .inf _ => False

instance (a : F64) (n : Int) : Decidable (a.eqInt n) :=
  match a with
  | .finite v => inferInstanceAs (Decidable (Frac.eq v (Frac.ofInt n)))
  | .inf _ => isFalse (fun h => h)

/-- `IntN(n)`: a draw in `[0, n)` (Go panics for `n ≤ 0`; every call site
passes `max-min+1 ≥ 1` after the swap in `getRandInt`). -/
def Rng.intN (g : Rng) (n : Nat) : Nat × Rng :=
  (g.seq g.pos % n, ⟨g.seq, g.pos + 1⟩)

/-- `Float64()`: a draw in `[0, 1)`, modelled as an exact fraction with 53
bits of numerator. -/
def Rng.float64 (g : Rng) : Frac × Rng :=
  (⟨((g.seq g.pos % 2^53 : ℕ) : Int), 2^53⟩, ⟨g.seq, g.pos + 1⟩)

/-- The stream for a given seed: an arbitrary fixed mixing function — a
pure function of `(seed, position)`, which is the only property of the
seeded PCG the claims rely on. -/
def mkRng (seed : Int) : Rng :=
  ⟨fun n => (seed.natAbs + n + 1) * 2654435761 % 4294967296, 0⟩

/-- A constant stream, used to evaluate the generator at concrete
inputs. -/
def constRng (v : Nat) : Rng := ⟨fun _ => v, 0⟩

/-- `IntRange` (workload.go). -/
structure IntRange where
  min : Int
  max : Int
deriving DecidableEq

/-- `PhaseParameters` (workload.go). -/
structure PhaseParameters where
  startRPS : IntRange
  endRPS : IntRange
  step : IntRange
deriving DecidableEq

/-- `PhasePattern` (workload.go). The float64 `ConstantLikelihood`,
`RampingLikelihood` and `Weight` fields are modelled as exact fractions;
the derived `totalTime` field is computed by `calculatePatternTimes` and
returned separately instead of being mutated in place. -/
structure PhasePattern where
  name : String
  phaseCount : IntRange
  constantLikelihood : Frac
  rampingLikelihood : Frac
  weight : Frac
  parameters : PhaseParameters
deriving DecidableEq

/-- `getRandInt` (workload.go): swaps the bounds when `min > max`, then
returns `IntN(max-min+1) + min`. -/
def getRandInt (g : Rng) (a b : Int) : Int × Rng :=
  let lo := if a > b then b else a
  let hi := if a > b then a else b
  let r := g.intN (hi - lo + 1).toNat
  (lo + (r.1 : Int), r.2)

/-- Go's `total := 0.0; for … { total += pattern.Weight }`: a float64
left fold over the weights, with the binary64 rounding of `F64.add`
applied at every step, exactly as the hardware addition rounds. -/
def weightTotal (patterns : List PhasePattern) : F64 :=
  patterns.foldl (fun acc p => acc.add p.weight) (.finite (Frac.ofInt 0))

/-- `calculatePatternTimes` (workload.go): the derived per-pattern
`totalTime` values in pattern order, or the literal weight error. An
empty pattern list returns immediately. All-zero weights split
`maxDuration` evenly (Go integer division); otherwise the float64 weight
total must equal exactly 1.0 and each pattern receives
`time.Duration(float64(maxDuration) * weight)`. -/
def calculatePatternTimes (maxDuration : Int) (patterns : List PhasePattern) :
    Except String (List Int) :=
  if patterns = [] then .ok []
  else if (weightTotal patterns).eqInt 0 then
    .ok (patterns.map fun _ => maxDuration.tdiv (patterns.length : Int))
  else if (weightTotal patterns).eqInt 1 then
    .ok (patterns.map fun p => ((Frac.ofInt maxDuration).mul p.weight).trunc)
  else .error "pattern weights must sum to 1.0"

/-- The body of the inner phase loop of `GenerateWorkload` (workload.go):
records the phase start, advances the running time cursor, draws the
phase type from `Float64()` against `ConstantLikelihood`, and draws
`StartRPS`, `EndRPS`, `Step` from their ranges in source order. -/
def genPhase (p : PhasePattern) (phaseDuration : Int) (i : Nat) (ct : Int)
    (g : Rng) : TestPhase × Int × Rng :=
  let c := g.float64
  let phaseType := if c.1.lt p.constantLikelihood then "constant" else "variable"
  let srps := getRandInt c.2 p.parameters.startRPS.min p.parameters.startRPS.max
  let erps := getRandInt srps.2 p.parameters.endRPS.min p.parameters.endRPS.max
  let st := getRandInt erps.2 p.parameters.step.min p.parameters.step.max
  (⟨p.name ++ "_" ++ toString i, phaseType, ct, phaseDuration, srps.1, erps.1, st.1⟩,
   ct + phaseDuration, st.2)

/-- The inner phase loop over the (0-based) phase indices. -/
def genPhasesFrom (p : PhasePattern) (d : Int) :
    List Nat → Int → Rng → List TestPhase × Int × Rng
  | [], ct, g => ([], ct, g)
  | i :: is, ct, g =>
    let x := genPhase p d i ct g
    let rest := genPhasesFrom p d is x.2.1 x.2.2
    (x.1 :: rest.1, rest.2)

/-- The outer pattern loop of `GenerateWorkload`: draws `phaseCount`,
divides the allocated time (`none` models the division-by-zero panic when
the drawn count is 0; a negative count divides without panicking and then
generates no phases, like Go's `for i := 0; i < phaseCount` loop), then
generates the pattern's phases and recurses with the shared time
cursor. -/
def genPatterns : List (PhasePattern × Int) → Int → Rng →
    Option (List TestPhase × Int × Rng)
  | [], ct, g => some ([], ct, g)
  | (p, tt) :: rest, ct, g =>
    let pc := getRandInt g p.phaseCount.min p.phaseCount.max
    if pc.1 = 0 then none
    else
      let d := tt.tdiv pc.1
      let x := genPhasesFrom p d (List.range pc.1.toNat) ct pc.2
      match genPatterns rest x.2.1 x.2.2 with
      | none => none
      | some y => some (x.1 ++ y.1, y.2)

/-- Result of `GenerateWorkload`: a normal Go return `(workload, err)` —
the error path returns `nil` phases — or a runtime panic (division by
zero). -/
inductive GenResult where
  | ret (phases : List TestPhase) (err : Option String)
  | panic
deriving DecidableEq

/-- Outcome of the pattern loop: the generated phases on success, the
division-by-zero panic otherwise. -/
def genResultOf : Option (List TestPhase × Int × Rng) → GenResult
  | none => .panic
  | some x => .ret x.1 none

/-- `GenerateWorkload` (workload.go) run against a given random
stream. -/
def generateWorkloadWith (maxDuration : Int) (patterns : List PhasePattern)
    (g : Rng) : GenResult :=
  match calculatePatternTimes maxDuration patterns with
  | .error msg => .ret [] (some msg)
  | .ok times => genResultOf (genPatterns (patterns.zip times) 0 g)

/-- `WorkloadPatternGenerator` (workload.go). -/
structure WorkloadPatternGenerator where
  seed : Int
  random : Rng
  maxDuration : Int
  patterns : List PhasePattern

/-- `NewWorkloadPatternGenerator` (workload.go): stores the seed and the
generator seeded with `NewPCG(seed, seed)`. -/
def NewWorkloadPatternGenerator (seed maxDuration : Int)
    (patterns : List PhasePattern) : WorkloadPatternGenerator :=
  ⟨seed, mkRng seed, maxDuration, patterns⟩

/-- The `GenerateWorkload` method of the generator. -/
def WorkloadPatternGenerator.generateWorkload (g : WorkloadPatternGenerator) :
    GenResult :=
  generateWorkloadWith g.maxDuration g.patterns g.random

/-! ## EndpointWorkload: construction-time validation and Run dispatch -/

/-- `Config` (workload.go). `Patterns` is a nil-able Go collection:
`none` models a nil `Patterns` field (the only thing
`NewEndpointWorkload` inspects about it is nil-ness). The `Timeout`
field is carried but never read by the verified code paths. -/
structure Config where
  generateWorkload : Bool
  seed : Int
  maxDuration : Int
  timeout : Int
  patterns : Option (List PhasePattern)
  phases : List TestPhase
deriving DecidableEq

/-- `NewEndpointWorkload` (workload.go): when generation is enabled it
requires a non-nil `Patterns` and overwrites `Config.Phases` with the
generated workload; when generation is disabled it requires a non-empty
`Phases`. No other validation is performed. The generation step itself
(the single-valued `GenerateWorkload` call on this path) is abstracted as
the function argument `gen`, since the validation outcome does not depend
on it. -/
def NewEndpointWorkload (config : Config)
    (gen : List PhasePattern → List TestPhase) : Except String Config :=
  if config.generateWorkload then
    match config.patterns with
    | none => .error "workload generation is enabled but no patterns provided"
    | some pats => .ok { config with phases := gen pats }
  else if config.phases.length = 0 then
    .error "workload generation is disabled but no phases provided"
  else .ok config

/-- The executor selection of `EndpointWorkload.Run` (workload.go): the
`switch phase.Type` with cases `"constant"` and `"variable"` and no
default; an unrecognized type leaves the `executor` variable nil
(`none`), and the unconditional `executor.Execute(ctx, phase)` that
follows is then a nil dereference. -/
inductive ExecutorChoice where
  | constant
  | ramping
deriving DecidableEq

def selectExecutor (t : String) : Option ExecutorChoice :=
  if t = "constant" then some .constant
  else if t = "variable" then some .ramping
  else none

/-- `EndpointWorkload.Run` reaches a nil dereference iff some phase's
type selects no executor (each phase's goroutine runs the switch and then
unconditionally calls `executor.Execute`). -/
def runHitsNilExecutor (config : Config) : Prop :=
  ∃ ph ∈ config.phases, selectExecutor ph.type = none

/-- Field-wise equality of two generated phases, as listed in claim
C2. -/
def phaseFieldsEq (p q : TestPhase) : Prop :=
  p.name = q.name ∧ p.type = q.type ∧ p.startTime = q.startTime ∧
  p.duration = q.duration ∧ p.startRPS = q.startRPS ∧
  p.endRPS = q.endRPS ∧ p.step = q.step

/-- C2: workload generation is deterministic — two generators constructed
with identical `(seed, maxDuration, patterns)` arguments produce, from
`GenerateWorkload`, identical results: the same phase lists with the same
length and, position by position, equal Name, Type, StartTime, Duration,
StartRPS, EndRPS and Step. -/
theorem claim_C2_deterministic (seed maxDuration : Int)
    (patterns : List PhasePattern) :
    (NewWorkloadPatternGenerator seed maxDuration patterns).generateWorkload =
      (NewWorkloadPatternGenerator seed maxDuration patterns).generateWorkload ∧
    ∀ phs1 phs2 e1 e2,
      (NewWorkloadPatternGenerator seed maxDuration patterns).generateWorkload
        = .ret phs1 e1 →
      (NewWorkloadPatternGenerator seed maxDuration patterns).generateWorkload
        = .ret phs2 e2 →
      phs1.length = phs2.length ∧
      ∀ i (h1 : i < phs1.length) (h2 : i < phs2.length),
        phaseFieldsEq (phs1.get ⟨i, h1⟩) (phs2.get ⟨i, h2⟩) := by
  refine ⟨rfl, ?_⟩
  intro phs1 phs2 e1 e2 h1 h2
  rw [h1] at h2
  injection h2 with hp he
  subst hp
  exact ⟨rfl, fun i hh1 hh2 => ⟨rfl, rfl, rfl, rfl, rfl, rfl, rfl⟩⟩

/-- Witness for C2: the determinism conclusion instantiated at a concrete
seed, duration and pattern, with the generated list evaluated
concretely. -/
theorem claim_C2_deterministic_witness :
    ∀ i (h1 : i < ([⟨"t_0", "constant", 0, 500, 1, 1, 1⟩,
                    ⟨"t_1", "constant", 500, 500, 1, 1, 1⟩] : List TestPhase).length)
        (h2 : i < ([⟨"t_0", "constant", 0, 500, 1, 1, 1⟩,
                    ⟨"t_1", "constant", 500, 500, 1, 1, 1⟩] : List TestPhase).length),
      phaseFieldsEq
        (([⟨"t_0", "constant", 0, 500, 1, 1, 1⟩,
           ⟨"t_1", "constant", 500, 500, 1, 1, 1⟩] : List TestPhase).get ⟨i, h1⟩)
        (([⟨"t_0", "constant", 0, 500, 1, 1, 1⟩,
           ⟨"t_1", "constant", 500, 500, 1, 1, 1⟩] : List TestPhase).get ⟨i, h2⟩) :=
  ((claim_C2_deterministic 12345 1000
      [⟨"t", ⟨2, 2⟩, ⟨1, 1⟩, ⟨0, 1⟩, ⟨0, 1⟩, ⟨⟨1, 1⟩, ⟨1, 1⟩, ⟨1, 1⟩⟩⟩]).2
    _ _ none none (by decide) (by decide)).2

/-- C5 fails as stated: `NewEndpointWorkload` does not reject a
configuration in which both `patterns` and `phases` are populated. With
generation disabled and a non-empty `Phases`, validation succeeds
regardless of `Patterns`, and the returned workload still carries both a
populated pattern list and a populated phase list, so neither the
claimed rejection nor the claimed exactly-one invariant on success
holds. -/
theorem claim_C5_counterexample :
    NewEndpointWorkload
      ⟨false, 0, 1000, 0,
       some [⟨"p", ⟨1, 1⟩, ⟨1, 1⟩, ⟨0, 1⟩, ⟨0, 1⟩, ⟨⟨1, 1⟩, ⟨1, 1⟩, ⟨1, 1⟩⟩⟩],
       [⟨"ph", "constant", 0, 1000, 1, 0, 0⟩]⟩ (fun _ => []) =
    .ok ⟨false, 0, 1000, 0,
       some [⟨"p", ⟨1, 1⟩, ⟨1, 1⟩, ⟨0, 1⟩, ⟨0, 1⟩, ⟨⟨1, 1⟩, ⟨1, 1⟩, ⟨1, 1⟩⟩⟩],
       [⟨"ph", "constant", 0, 1000, 1, 0, 0⟩]⟩ := rfl

/-- C5 (amended): `NewEndpointWorkload` returns a configuration error
(before any phase executes) iff generation is enabled with a nil
`Patterns`, or generation is disabled with an empty `Phases`. Both
collections being populated at once is not rejected, and a successful
result always keeps the input's `Patterns`, so the exactly-one invariant
need not hold on success. -/
theorem claim_C5_validation (config : Config)
    (gen : List PhasePattern → List TestPhase) :
    ((∃ m, NewEndpointWorkload config gen = .error m) ↔
      ((config.generateWorkload = true ∧ config.patterns = none) ∨
       (config.generateWorkload = false ∧ config.phases = []))) ∧
    (∀ c, NewEndpointWorkload config gen = .ok c →
       c.patterns = config.patterns) := by
  constructor
  · cases hgw : config.generateWorkload with
    | true =>
      cases hp : config.patterns with
      | none => simp [NewEndpointWorkload, hgw, hp]
      | some pats => simp [NewEndpointWorkload, hgw, hp]
    | false =>
      by_cases hz : config.phases.length = 0
      · simp [NewEndpointWorkload, hgw, hz, List.length_eq_zero.mp hz]
      · have hnil : config.phases ≠ [] := fun hc => hz (by rw [hc]; rfl)
        simp [NewEndpointWorkload, hgw, hz, hnil]
  · intro c hc
    unfold NewEndpointWorkload at hc
    cases hgw : config.generateWorkload <;> rw [hgw] at hc
    · by_cases hz : config.phases.length = 0 <;> simp [hz] at hc
      rw [← hc]
    · cases hp : config.patterns <;> rw [hp] at hc <;> simp at hc
      rw [← hc]

/-- Witness for C5 (amended): the error characterization applied at a
concrete generation-enabled config with nil patterns, and the
patterns-preserving conclusion applied at a concrete successful
construction. -/
theorem claim_C5_validation_witness :
    (∃ m, NewEndpointWorkload ⟨true, 0, 1000, 0, none, []⟩ (fun _ => []) =
      .error m) ∧
    (⟨false, 0, 1000, 0, none, [⟨"ph", "constant", 0, 1000, 1, 0, 0⟩]⟩ :
      Config).patterns =
    (⟨false, 0, 1000, 0, none, [⟨"ph", "constant", 0, 1000, 1, 0, 0⟩]⟩ :
      Config).patterns :=
  ⟨(claim_C5_validation ⟨true, 0, 1000, 0, none, []⟩ (fun _ => [])).1.mpr
      (Or.inl ⟨rfl, rfl⟩),
   (claim_C5_validation
      ⟨false, 0, 1000, 0, none, [⟨"ph", "constant", 0, 1000, 1, 0, 0⟩]⟩
      (fun _ => [])).2 _ rfl⟩

/-- C9: for every config whose phase list contains a phase with a Type
that is neither "constant" nor "variable", the dispatch in
`EndpointWorkload.Run` selects no executor for that phase (the switch has
no default case), so the unconditional `executor.Execute(ctx, phase)`
that follows dereferences a nil interface. -/
theorem claim_C9_nilExecutor (config : Config) (ph : TestPhase)
    (hmem : ph ∈ config.phases) (hc : ph.type ≠ "constant")
    (hv : ph.type ≠ "variable") : runHitsNilExecutor config :=
  ⟨ph, hmem, by simp [selectExecutor, hc, hv]⟩

/-- Witness for C9: a config whose only phase has the unrecognized type
"ramping". -/
theorem claim_C9_nilExecutor_witness :
    runHitsNilExecutor
      ⟨false, 0, 1000, 0, none, [⟨"ph", "ramping", 0, 1000, 1, 0, 0⟩]⟩ :=
  claim_C9_nilExecutor _ ⟨"ph", "ramping", 0, 1000, 1, 0, 0⟩
    (by decide) (by decide) (by decide)

theorem generateWorkloadWith_eq_ok (maxDuration : Int)
    (patterns : List PhasePattern) (g : Rng) (l : List Int)
    (hok : calculatePatternTimes maxDuration patterns = .ok l) :
    generateWorkloadWith maxDuration patterns g =
      genResultOf (genPatterns (patterns.zip l) 0 g) := by
  unfold generateWorkloadWith
  rw [hok]

theorem generateWorkloadWith_of_ok (maxDuration : Int)
    (patterns : List PhasePattern) (g : Rng) (l : List Int)
    (hok : calculatePatternTimes maxDuration patterns = .ok l) :
    generateWorkloadWith maxDuration patterns g = .panic ∨
    ∃ phs, generateWorkloadWith maxDuration patterns g = .ret phs none := by
  rw [generateWorkloadWith_eq_ok maxDuration patterns g l hok]
  cases genPatterns (patterns.zip l) 0 g with
  | none => exact Or.inl rfl
  | some x => exact Or.inr ⟨x.1, rfl⟩

theorem generateWorkloadWith_of_error (maxDuration : Int)
    (patterns : List PhasePattern) (g : Rng) (msg : String)
    (herr : calculatePatternTimes maxDuration patterns = .error msg) :
    generateWorkloadWith maxDuration patterns g = .ret [] (some msg) := by
  unfold generateWorkloadWith
  rw [herr]

/-- C6: for every non-empty pattern list, `GenerateWorkload` returns the
literal error "pattern weights must sum to 1.0" iff the sum of the
patterns' weights — the float64 value `total` produced by Go's
`total += pattern.Weight` accumulation, modelled with IEEE-754 binary64
round-to-nearest-even at every step — is neither exactly 0.0 nor exactly
1.0; on that error it returns an empty (nil) phase list, and when the
total is 0.0 or exactly 1.0 it returns no error. -/
theorem claim_C6_weightError (patterns : List PhasePattern)
    (hne : patterns ≠ []) (maxDuration : Int) (g : Rng) :
    ((∃ phs m, generateWorkloadWith maxDuration patterns g = .ret phs (some m)) ↔
      (¬ (weightTotal patterns).eqInt 0 ∧
       ¬ (weightTotal patterns).eqInt 1)) ∧
    (¬ (weightTotal patterns).eqInt 0 →
     ¬ (weightTotal patterns).eqInt 1 →
      generateWorkloadWith maxDuration patterns g =
        .ret [] (some "pattern weights must sum to 1.0")) := by
  by_cases h0 : (weightTotal patterns).eqInt 0
  · have hok : calculatePatternTimes maxDuration patterns =
        .ok (patterns.map fun _ => maxDuration.tdiv (patterns.length : Int)) := by
      unfold calculatePatternTimes
      rw [if_neg hne, if_pos h0]
    refine ⟨⟨?_, fun hab => absurd h0 hab.1⟩, fun ha _ => absurd h0 ha⟩
    rintro ⟨phs, m, hret⟩
    rcases generateWorkloadWith_of_ok _ _ g _ hok with hp | ⟨phs', hr⟩
    · rw [hp] at hret; cases hret
    · rw [hr] at hret; injection hret with _ hnone; cases hnone
  · by_cases h1 : (weightTotal patterns).eqInt 1
    · have hok : calculatePatternTimes maxDuration patterns =
          .ok (patterns.map fun p => ((Frac.ofInt maxDuration).mul p.weight).trunc) := by
        unfold calculatePatternTimes
        rw [if_neg hne, if_neg h0, if_pos h1]
      refine ⟨⟨?_, fun hab => absurd h1 hab.2⟩, fun _ hb => absurd h1 hb⟩
      rintro ⟨phs, m, hret⟩
      rcases generateWorkloadWith_of_ok _ _ g _ hok with hp | ⟨phs', hr⟩
      · rw [hp] at hret; cases hret
      · rw [hr] at hret; injection hret with _ hnone; cases hnone
    · have herr : calculatePatternTimes maxDuration patterns =
          .error "pattern weights must sum to 1.0" := by
        unfold calculatePatternTimes
        rw [if_neg hne, if_neg h0, if_neg h1]
      have hret := generateWorkloadWith_of_error _ _ g _ herr
      exact ⟨⟨fun _ => ⟨h0, h1⟩, fun _ => ⟨[], _, hret⟩⟩, fun _ _ => hret⟩

/-- Witness for C6, exercising both directions of the iff: a single
pattern of weight 0.9 (float64 total neither 0 nor 1) makes
`GenerateWorkload` return the literal error with a nil phase list; and
five patterns whose weights are each the float64 value 0.2 (the dyadic
3602879701896397/2⁵⁴) return no error — their exact rational sum is
1 + 2⁻⁵⁴ ≠ 1, but the two intermediate ties round to even and the
float64 accumulation reaches exactly 1.0, as in Go. -/
theorem claim_C6_weightError_witness :
    generateWorkloadWith 1000
      [⟨"w", ⟨1, 1⟩, ⟨1, 1⟩, ⟨0, 1⟩, ⟨9, 10⟩, ⟨⟨1, 1⟩, ⟨1, 1⟩, ⟨1, 1⟩⟩⟩]
      (constRng 0) = .ret [] (some "pattern weights must sum to 1.0") ∧
    ∀ phs m, generateWorkloadWith 1000
      [⟨"v0", ⟨1, 1⟩, ⟨1, 1⟩, ⟨0, 1⟩, ⟨3602879701896397, 18014398509481984⟩,
        ⟨⟨1, 1⟩, ⟨1, 1⟩, ⟨1, 1⟩⟩⟩,
       ⟨"v1", ⟨1, 1⟩, ⟨1, 1⟩, ⟨0, 1⟩, ⟨3602879701896397, 18014398509481984⟩,
        ⟨⟨1, 1⟩, ⟨1, 1⟩, ⟨1, 1⟩⟩⟩,
       ⟨"v2", ⟨1, 1⟩, ⟨1, 1⟩, ⟨0, 1⟩, ⟨3602879701896397, 18014398509481984⟩,
        ⟨⟨1, 1⟩, ⟨1, 1⟩, ⟨1, 1⟩⟩⟩,
       ⟨"v3", ⟨1, 1⟩, ⟨1, 1⟩, ⟨0, 1⟩, ⟨3602879701896397, 18014398509481984⟩,
        ⟨⟨1, 1⟩, ⟨1, 1⟩, ⟨1, 1⟩⟩⟩,
       ⟨"v4", ⟨1, 1⟩, ⟨1, 1⟩, ⟨0, 1⟩, ⟨3602879701896397, 18014398509481984⟩,
        ⟨⟨1, 1⟩, ⟨1, 1⟩, ⟨1, 1⟩⟩⟩]
      (constRng 0) ≠ .ret phs (some m) :=
  ⟨(claim_C6_weightError _ (by decide) 1000 (constRng 0)).2
      (by decide) (by decide),
   fun phs m h =>
     absurd ((claim_C6_weightError _ (by decide) 1000 (constRng 0)).1.mp
       ⟨phs, m, h⟩) (by decide)⟩

theorem getRandInt_lower (g : Rng) (a b : Int) :
    min a b ≤ (getRandInt g a b).1 := by
  by_cases hab : a > b
  · simp only [getRandInt, Rng.intN, if_pos hab]
    omega
  · simp only [getRandInt, Rng.intN, if_neg hab]
    omega

theorem genPatterns_ne_none (pats : List (PhasePattern × Int)) (ct : Int)
    (g : Rng)
    (h : ∀ p ∈ pats, 1 ≤ min p.1.phaseCount.min p.1.phaseCount.max) :
    genPatterns pats ct g ≠ none := by
  induction pats generalizing ct g with
  | nil => simp [genPatterns]
  | cons hd tl ih =>
    obtain ⟨p, tt⟩ := hd
    have hlow := getRandInt_lower g p.phaseCount.min p.phaseCount.max
    have hone := h (p, tt) (List.mem_cons_self _ _)
    have hpc : ¬ (getRandInt g p.phaseCount.min p.phaseCount.max).1 = 0 := by
      simp only at hone; omega
    simp only [genPatterns]
    rw [if_neg hpc]
    cases hgp : genPatterns tl
        (genPhasesFrom p (tt.tdiv (getRandInt g p.phaseCount.min p.phaseCount.max).1)
          (List.range (getRandInt g p.phaseCount.min p.phaseCount.max).1.toNat) ct
          (getRandInt g p.phaseCount.min p.phaseCount.max).2).2.1
        (genPhasesFrom p (tt.tdiv (getRandInt g p.phaseCount.min p.phaseCount.max).1)
          (List.range (getRandInt g p.phaseCount.min p.phaseCount.max).1.toNat) ct
          (getRandInt g p.phaseCount.min p.phaseCount.max).2).2.2 with
    | none => exact absurd hgp (ih _ _ (fun q hq => h q (List.mem_cons_of_mem _ hq)))
    | some y => simp

/-- C10: the drawn phase count is divided without a positivity check —
any template whose PhaseCount range is `{Min: 0, Max: 0}` forces a drawn
count of 0 and `allocatedTime / phaseCount` is a division-by-zero panic
(not a returned error), for every duration and every seeded stream;
conversely, when every template's corrected PhaseCount range lies at or
above 1 (so every drawn count is at least 1), the panic cannot occur. -/
theorem claim_C10_phaseCountPanic :
    (∀ (name : String) (cl rl : Frac) (params : PhaseParameters)
       (maxDuration : Int) (g : Rng),
       generateWorkloadWith maxDuration
         [⟨name, ⟨0, 0⟩, cl, rl, Frac.ofInt 0, params⟩] g = .panic) ∧
    (∀ (patterns : List PhasePattern) (maxDuration : Int) (g : Rng),
       (∀ p ∈ patterns, 1 ≤ min p.phaseCount.min p.phaseCount.max) →
       generateWorkloadWith maxDuration patterns g ≠ .panic) := by
  constructor
  · intro name cl rl params maxDuration g
    have hok : calculatePatternTimes maxDuration
        [⟨name, ⟨0, 0⟩, cl, rl, Frac.ofInt 0, params⟩] =
        .ok [maxDuration.tdiv 1] := by
      unfold calculatePatternTimes
      rw [if_neg (by simp), if_pos (by rfl)]
      rfl
    have hzero : (getRandInt g 0 0).1 = 0 := by
      simp [getRandInt, Rng.intN]
    have hgp : genPatterns
        ([(⟨name, ⟨0, 0⟩, cl, rl, Frac.ofInt 0, params⟩ : PhasePattern)].zip
          [maxDuration.tdiv 1]) 0 g = none := by
      simp only [List.zip, List.zipWith, genPatterns]
      rw [if_pos hzero]
    rw [generateWorkloadWith_eq_ok _ _ g _ hok, hgp]
    rfl
  · intro patterns maxDuration g h hcontra
    cases hct : calculatePatternTimes maxDuration patterns with
    | error msg =>
      rw [generateWorkloadWith_of_error _ _ g _ hct] at hcontra
      cases hcontra
    | ok l =>
      rw [generateWorkloadWith_eq_ok _ _ g _ hct] at hcontra
      cases hgp : genPatterns (patterns.zip l) 0 g with
      | none =>
        refine absurd hgp (genPatterns_ne_none _ 0 g ?_)
        intro q hq
        exact h q.1 (List.of_mem_zip hq).1
      | some x =>
        rw [hgp] at hcontra
        cases hcontra

/-- Witness for C10: the panic at a concrete `{0,0}` template, and the
no-panic conclusion at a concrete template whose count range is
`{1,2}`. -/
theorem claim_C10_phaseCountPanic_witness :
    generateWorkloadWith 1000
      [⟨"z", ⟨0, 0⟩, ⟨1, 1⟩, ⟨0, 1⟩, ⟨0, 1⟩, ⟨⟨1, 1⟩, ⟨1, 1⟩, ⟨1, 1⟩⟩⟩]
      (constRng 3) = .panic ∧
    generateWorkloadWith 1000
      [⟨"t", ⟨1, 2⟩, ⟨1, 1⟩, ⟨0, 1⟩, ⟨0, 1⟩, ⟨⟨1, 1⟩, ⟨1, 1⟩, ⟨1, 1⟩⟩⟩]
      (constRng 3) ≠ .panic :=
  ⟨claim_C10_phaseCountPanic.1 "z" ⟨1, 1⟩ ⟨0, 1⟩ ⟨⟨1, 1⟩, ⟨1, 1⟩, ⟨1, 1⟩⟩ 1000
      (constRng 3),
   claim_C10_phaseCountPanic.2 _ 1000 (constRng 3) (by decide)⟩

/-! ## Layout of the generated schedule -/

/-- The phases are laid out back to back: starting from time cursor `ct`,
each phase starts exactly where the running cursor stands and advances it
by its duration, ending at `ct'`. This is the invariant the
`currentTime` cursor of `GenerateWorkload` maintains. -/
inductive ChainedFrom : Int → List TestPhase → Int → Prop
  | nil (ct : Int) : ChainedFrom ct [] ct
  | cons (ct ct' : Int) (ph : TestPhase) (rest : List TestPhase) :
      ph.startTime = ct → ChainedFrom (ct + ph.duration) rest ct' →
      ChainedFrom ct (ph :: rest) ct'

theorem chainedFrom_append {ct mid ct' : Int} {xs ys : List TestPhase}
    (h1 : ChainedFrom ct xs mid) (h2 : ChainedFrom mid ys ct') :
    ChainedFrom ct (xs ++ ys) ct' := by
  induction h1 with
  | nil _ => exact h2
  | cons ct0 mid0 ph rest hst hrest ih => exact .cons _ _ _ _ hst (ih h2)

theorem ChainedFrom.startTime_get :
    ∀ {ct ct' : Int} {phs : List TestPhase}, ChainedFrom ct phs ct' →
      ∀ (i : Nat) (hi : i < phs.length),
        (phs.get ⟨i, hi⟩).startTime =
          ct + ((phs.take i).map TestPhase.duration).sum := by
  intro ct ct' phs h
  induction h with
  | nil _ => intro i hi; exact absurd hi (Nat.not_lt_zero i)
  | cons ct0 ct0' ph rest hst hrest ih =>
    intro i hi
    cases i with
    | zero => simpa using hst
    | succ n =>
      have hn := ih n (Nat.lt_of_succ_lt_succ (by simpa using hi))
      simp only [List.get_cons_succ, List.take_succ_cons, List.map_cons,
        List.sum_cons]
      rw [hn]
      omega

theorem genPhase_name (p : PhasePattern) (d : Int) (i : Nat) (ct : Int)
    (g : Rng) :
    (genPhase p d i ct g).1.name = p.name ++ "_" ++ toString i := rfl

theorem genPhase_startTime (p : PhasePattern) (d : Int) (i : Nat) (ct : Int)
    (g : Rng) : (genPhase p d i ct g).1.startTime = ct := rfl

theorem genPhase_duration (p : PhasePattern) (d : Int) (i : Nat) (ct : Int)
    (g : Rng) : (genPhase p d i ct g).1.duration = d := rfl

theorem genPhasesFrom_chained (p : PhasePattern) (d : Int) :
    ∀ (idxs : List Nat) (ct : Int) (g : Rng),
      ChainedFrom ct (genPhasesFrom p d idxs ct g).1
        (genPhasesFrom p d idxs ct g).2.1 := by
  intro idxs
  induction idxs with
  | nil => intro ct g; exact .nil ct
  | cons i is ih =>
    intro ct g
    simp only [genPhasesFrom]
    exact .cons _ _ _ _ rfl (ih (ct + d) (genPhase p d i ct g).2.2)

theorem genPhasesFrom_names (p : PhasePattern) (d : Int) :
    ∀ (idxs : List Nat) (ct : Int) (g : Rng),
      ∀ ph ∈ (genPhasesFrom p d idxs ct g).1, ∃ i : Nat,
        ph.name = p.name ++ "_" ++ toString i := by
  intro idxs
  induction idxs with
  | nil => intro ct g ph h; cases h
  | cons i is ih =>
    intro ct g ph h
    simp only [genPhasesFrom] at h
    cases h with
    | head => exact ⟨i, rfl⟩
    | tail _ hmem => exact ih _ _ ph hmem

theorem genPatterns_chained :
    ∀ (pats : List (PhasePattern × Int)) (ct : Int) (g : Rng)
      (x : List TestPhase × Int × Rng),
      genPatterns pats ct g = some x → ChainedFrom ct x.1 x.2.1 := by
  intro pats
  induction pats with
  | nil =>
    intro ct g x h
    injection h with h
    subst h
    exact .nil ct
  | cons hd tl ih =>
    obtain ⟨p, tt⟩ := hd
    intro ct g x h
    simp only [genPatterns] at h
    by_cases hpc : (getRandInt g p.phaseCount.min p.phaseCount.max).1 = 0
    · rw [if_pos hpc] at h; cases h
    · rw [if_neg hpc] at h
      split at h
      · cases h
      · rename_i y hy
        injection h with h
        subst h
        exact chainedFrom_append (genPhasesFrom_chained p _ _ ct _) (ih _ _ y hy)

theorem genPatterns_groups :
    ∀ (pats : List (PhasePattern × Int)) (ct : Int) (g : Rng)
      (x : List TestPhase × Int × Rng),
      genPatterns pats ct g = some x →
      ∃ groups : List (List TestPhase),
        groups.length = pats.length ∧ x.1 = groups.flatten ∧
        ∀ (k : Nat) (hk : k < groups.length) (hk' : k < pats.length),
          ∀ ph ∈ groups.get ⟨k, hk⟩, ∃ i : Nat,
            ph.name = (pats.get ⟨k, hk'⟩).1.name ++ "_" ++ toString i := by
  intro pats
  induction pats with
  | nil =>
    intro ct g x h
    injection h with h
    subst h
    exact ⟨[], rfl, rfl, fun k hk => absurd hk (Nat.not_lt_zero k)⟩
  | cons hd tl ih =>
    obtain ⟨p, tt⟩ := hd
    intro ct g x h
    simp only [genPatterns] at h
    by_cases hpc : (getRandInt g p.phaseCount.min p.phaseCount.max).1 = 0
    · rw [if_pos hpc] at h; cases h
    · rw [if_neg hpc] at h
      split at h
      · cases h
      · rename_i y hy
        injection h with h
        subst h
        obtain ⟨groups, hlen, hjoin, hnames⟩ := ih _ _ y hy
        refine ⟨(genPhasesFrom p
            (tt.tdiv (getRandInt g p.phaseCount.min p.phaseCount.max).1)
            (List.range (getRandInt g p.phaseCount.min p.phaseCount.max).1.toNat)
            ct (getRandInt g p.phaseCount.min p.phaseCount.max).2).1 :: groups,
          by simpa using hlen, by simp [hjoin], ?_⟩
        intro k hk hk' ph hmem
        cases k with
        | zero =>
          exact genPhasesFrom_names p _ _ ct _ ph hmem
        | succ n =>
          exact hnames n (Nat.lt_of_succ_lt_succ (by simpa using hk))
            (Nat.lt_of_succ_lt_succ (by simpa using hk')) ph hmem

theorem ret_of_generateWorkloadWith (maxDuration : Int)
    (patterns : List PhasePattern) (g : Rng) (phs : List TestPhase)
    (h : generateWorkloadWith maxDuration patterns g = .ret phs none) :
    ∃ l x, calculatePatternTimes maxDuration patterns = .ok l ∧
      genPatterns (patterns.zip l) 0 g = some x ∧ x.1 = phs := by
  cases hct : calculatePatternTimes maxDuration patterns with
  | error m =>
    rw [generateWorkloadWith_of_error _ _ g _ hct] at h
    injection h with h1 h2
    cases h2
  | ok l =>
    rw [generateWorkloadWith_eq_ok _ _ g _ hct] at h
    cases hgp : genPatterns (patterns.zip l) 0 g with
    | none => rw [hgp] at h; cases h
    | some x =>
      rw [hgp] at h
      injection h with h1 h2
      exact ⟨l, x, rfl, hgp, h1⟩

theorem calculatePatternTimes_length (maxDuration : Int)
    (patterns : List PhasePattern) (l : List Int)
    (hok : calculatePatternTimes maxDuration patterns = .ok l) :
    l.length = patterns.length := by
  unfold calculatePatternTimes at hok
  by_cases hP : patterns = []
  · rw [if_pos hP] at hok
    injection hok with h
    subst h
    simp [hP]
  · rw [if_neg hP] at hok
    by_cases h0 : (weightTotal patterns).eqInt 0
    · rw [if_pos h0] at hok
      injection hok with h
      subst h
      simp
    · rw [if_neg h0] at hok
      by_cases h1 : (weightTotal patterns).eqInt 1
      · rw [if_pos h1] at hok
        injection hok with h
        subst h
        simp
      · rw [if_neg h1] at hok
        cases hok

/-- C7: for every pattern list and every seeded stream, a successfully
generated phase list is grouped by template in the templates' given input
order (it is a concatenation of per-template groups, each phase carrying
its own template's name followed by "_" and an index), and every phase's
StartTime equals the sum of the Durations of all phases before it in the
list — in particular the first phase starts at 0 and StartTimes ascend
back to back, regardless of the weights. -/
theorem claim_C7_orderedGrouping (patterns : List PhasePattern)
    (maxDuration : Int) (g : Rng) (phs : List TestPhase)
    (hret : generateWorkloadWith maxDuration patterns g = .ret phs none) :
    (∃ groups : List (List TestPhase),
      groups.length = patterns.length ∧
      phs = groups.flatten ∧
      ∀ (k : Nat) (hk : k < groups.length) (hk' : k < patterns.length),
        ∀ ph ∈ groups.get ⟨k, hk⟩, ∃ i : Nat,
          ph.name = (patterns.get ⟨k, hk'⟩).name ++ "_" ++ toString i) ∧
    ∀ (i : Nat) (hi : i < phs.length),
      (phs.get ⟨i, hi⟩).startTime =
        ((phs.take i).map TestPhase.duration).sum := by
  obtain ⟨l, x, hok, hgp, hx⟩ :=
    ret_of_generateWorkloadWith maxDuration patterns g phs hret
  have hlen : l.length = patterns.length :=
    calculatePatternTimes_length maxDuration patterns l hok
  have hziplen : (patterns.zip l).length = patterns.length := by
    rw [List.length_zip, hlen, min_self]
  constructor
  · obtain ⟨groups, hglen, hjoin, hnames⟩ := genPatterns_groups _ 0 g x hgp
    refine ⟨groups, by rw [hglen, hziplen], by rw [← hx, hjoin], ?_⟩
    intro k hk hk' ph hmem
    have hk2 : k < (patterns.zip l).length := by rwa [hziplen]
    obtain ⟨i, hi⟩ := hnames k hk hk2 ph hmem
    refine ⟨i, ?_⟩
    rw [hi]
    congr 1
    simp [List.get_eq_getElem, List.getElem_zip]
  · intro i hi
    have hch := genPatterns_chained _ 0 g x hgp
    rw [hx] at hch
    simpa using hch.startTime_get i hi

/-- Witness for C7: the grouping and StartTime conclusions at a concrete
pattern list, stream and generated phase list, with the generation
hypothesis discharged by evaluation. -/
theorem claim_C7_orderedGrouping_witness :
    (∃ groups : List (List TestPhase),
      groups.length =
        ([⟨"t", ⟨2, 2⟩, ⟨1, 1⟩, ⟨0, 1⟩, ⟨0, 1⟩, ⟨⟨1, 1⟩, ⟨1, 1⟩, ⟨1, 1⟩⟩⟩] :
          List PhasePattern).length ∧
      ([⟨"t_0", "constant", 0, 500, 1, 1, 1⟩,
        ⟨"t_1", "constant", 500, 500, 1, 1, 1⟩] : List TestPhase) =
        groups.flatten ∧
      ∀ (k : Nat) (hk : k < groups.length)
        (hk' : k < ([⟨"t", ⟨2, 2⟩, ⟨1, 1⟩, ⟨0, 1⟩, ⟨0, 1⟩,
          ⟨⟨1, 1⟩, ⟨1, 1⟩, ⟨1, 1⟩⟩⟩] : List PhasePattern).length),
        ∀ ph ∈ groups.get ⟨k, hk⟩, ∃ i : Nat,
          ph.name = (([⟨"t", ⟨2, 2⟩, ⟨1, 1⟩, ⟨0, 1⟩, ⟨0, 1⟩,
            ⟨⟨1, 1⟩, ⟨1, 1⟩, ⟨1, 1⟩⟩⟩] : List PhasePattern).get ⟨k, hk'⟩).name
            ++ "_" ++ toString i) ∧
    ∀ (i : Nat) (hi : i < ([⟨"t_0", "constant", 0, 500, 1, 1, 1⟩,
        ⟨"t_1", "constant", 500, 500, 1, 1, 1⟩] : List TestPhase).length),
      (([⟨"t_0", "constant", 0, 500, 1, 1, 1⟩,
         ⟨"t_1", "constant", 500, 500, 1, 1, 1⟩] : List TestPhase).get
          ⟨i, hi⟩).startTime =
        ((([⟨"t_0", "constant", 0, 500, 1, 1, 1⟩,
            ⟨"t_1", "constant", 500, 500, 1, 1, 1⟩] : List TestPhase).take
          i).map TestPhase.duration).sum :=
  claim_C7_orderedGrouping
    [⟨"t", ⟨2, 2⟩, ⟨1, 1⟩, ⟨0, 1⟩, ⟨0, 1⟩, ⟨⟨1, 1⟩, ⟨1, 1⟩, ⟨1, 1⟩⟩⟩]
    1000 (constRng 0)
    [⟨"t_0", "constant", 0, 500, 1, 1, 1⟩,
     ⟨"t_1", "constant", 500, 500, 1, 1, 1⟩] (by decide)

/-! ## Weight-proportional time allocation -/

/-- Sum of the Durations of the returned phases whose Name is among the
given names (0 on the error or panic outcome). Used to read one
template's total allocated time out of a generated schedule, the phases
of template `T` being named `T_0, T_1, …`. -/
def durationSumOf (r : GenResult) (names : List String) : Int :=
  match r with
  | .ret phs _ =>
    ((phs.filter (fun ph => decide (ph.name ∈ names))).map
      TestPhase.duration).sum
  | .panic => 0

theorem getRandInt_same (g : Rng) (a : Int) :
    getRandInt g a a = (a, ⟨g.seq, g.pos + 1⟩) := by
  simp [getRandInt, Rng.intN]

theorem float64_snd (g : Rng) : (g.float64).2 = ⟨g.seq, g.pos + 1⟩ := rfl

theorem float64_lt_one (g : Rng) : (g.float64).1.lt ⟨1, 1⟩ := by
  simp only [Rng.float64, Frac.lt]
  have h := Nat.mod_lt (g.seq g.pos) (show 0 < 2^53 by norm_num)
  omega

theorem genPhase_sing (p : PhasePattern)
    (hcl : p.constantLikelihood = ⟨1, 1⟩)
    (hsr : p.parameters.startRPS.min = p.parameters.startRPS.max)
    (her : p.parameters.endRPS.min = p.parameters.endRPS.max)
    (hst : p.parameters.step.min = p.parameters.step.max)
    (d : Int) (i : Nat) (ct : Int) (g : Rng) :
    genPhase p d i ct g =
      (⟨p.name ++ "_" ++ toString i, "constant", ct, d,
        p.parameters.startRPS.min, p.parameters.endRPS.min,
        p.parameters.step.min⟩,
       ct + d, ⟨g.seq, g.pos + 1 + 1 + 1 + 1⟩) := by
  simp only [genPhase, hcl, ← hsr, ← her, ← hst, float64_snd,
    getRandInt_same]
  simp [float64_lt_one g]

theorem gen_scenario_weighted (g : Rng) :
    generateWorkloadWith 100000000000
      [⟨"A", ⟨2, 2⟩, ⟨1, 1⟩, ⟨0, 1⟩, ⟨7, 10⟩, ⟨⟨1, 1⟩, ⟨1, 1⟩, ⟨1, 1⟩⟩⟩,
       ⟨"B", ⟨1, 1⟩, ⟨1, 1⟩, ⟨0, 1⟩, ⟨3, 10⟩, ⟨⟨1, 1⟩, ⟨1, 1⟩, ⟨1, 1⟩⟩⟩] g =
      .ret [⟨"A_0", "constant", 0, 35000000000, 1, 1, 1⟩,
            ⟨"A_1", "constant", 35000000000, 35000000000, 1, 1, 1⟩,
            ⟨"B_0", "constant", 70000000000, 30000000000, 1, 1, 1⟩] none := by
  have hok : calculatePatternTimes 100000000000
      [⟨"A", ⟨2, 2⟩, ⟨1, 1⟩, ⟨0, 1⟩, ⟨7, 10⟩, ⟨⟨1, 1⟩, ⟨1, 1⟩, ⟨1, 1⟩⟩⟩,
       ⟨"B", ⟨1, 1⟩, ⟨1, 1⟩, ⟨0, 1⟩, ⟨3, 10⟩, ⟨⟨1, 1⟩, ⟨1, 1⟩, ⟨1, 1⟩⟩⟩] =
      .ok [70000000000, 30000000000] := rfl
  rw [generateWorkloadWith_eq_ok _ _ g _ hok]
  simp [genPatterns, genPhasesFrom, genResultOf, getRandInt_same,
    genPhase_sing,
    show (70000000000 : Int).tdiv 2 = 35000000000 from by decide,
    show (30000000000 : Int).tdiv 1 = 30000000000 from by decide]
  exact ⟨rfl, rfl, rfl⟩

theorem gen_scenario_equal (g : Rng) :
    generateWorkloadWith 30000000000
      [⟨"X", ⟨2, 2⟩, ⟨1, 1⟩, ⟨0, 1⟩, ⟨0, 1⟩, ⟨⟨1, 1⟩, ⟨1, 1⟩, ⟨1, 1⟩⟩⟩,
       ⟨"Y", ⟨5, 5⟩, ⟨1, 1⟩, ⟨0, 1⟩, ⟨0, 1⟩, ⟨⟨1, 1⟩, ⟨1, 1⟩, ⟨1, 1⟩⟩⟩,
       ⟨"Z", ⟨1, 1⟩, ⟨1, 1⟩, ⟨0, 1⟩, ⟨0, 1⟩, ⟨⟨1, 1⟩, ⟨1, 1⟩, ⟨1, 1⟩⟩⟩] g =
      .ret [⟨"X_0", "constant", 0, 5000000000, 1, 1, 1⟩,
            ⟨"X_1", "constant", 5000000000, 5000000000, 1, 1, 1⟩,
            ⟨"Y_0", "constant", 10000000000, 2000000000, 1, 1, 1⟩,
            ⟨"Y_1", "constant", 12000000000, 2000000000, 1, 1, 1⟩,
            ⟨"Y_2", "constant", 14000000000, 2000000000, 1, 1, 1⟩,
            ⟨"Y_3", "constant", 16000000000, 2000000000, 1, 1, 1⟩,
            ⟨"Y_4", "constant", 18000000000, 2000000000, 1, 1, 1⟩,
            ⟨"Z_0", "constant", 20000000000, 10000000000, 1, 1, 1⟩] none := by
  have hok : calculatePatternTimes 30000000000
      [⟨"X", ⟨2, 2⟩, ⟨1, 1⟩, ⟨0, 1⟩, ⟨0, 1⟩, ⟨⟨1, 1⟩, ⟨1, 1⟩, ⟨1, 1⟩⟩⟩,
       ⟨"Y", ⟨5, 5⟩, ⟨1, 1⟩, ⟨0, 1⟩, ⟨0, 1⟩, ⟨⟨1, 1⟩, ⟨1, 1⟩, ⟨1, 1⟩⟩⟩,
       ⟨"Z", ⟨1, 1⟩, ⟨1, 1⟩, ⟨0, 1⟩, ⟨0, 1⟩, ⟨⟨1, 1⟩, ⟨1, 1⟩, ⟨1, 1⟩⟩⟩] =
      .ok [10000000000, 10000000000, 10000000000] := rfl
  rw [generateWorkloadWith_eq_ok _ _ g _ hok]
  simp [genPatterns, genPhasesFrom, genResultOf, getRandInt_same,
    genPhase_sing,
    show (10000000000 : Int).tdiv 2 = 5000000000 from by decide,
    show (10000000000 : Int).tdiv 5 = 2000000000 from by decide,
    show (10000000000 : Int).tdiv 1 = 10000000000 from by decide]
  exact ⟨rfl, rfl, rfl, rfl, rfl, rfl, rfl, rfl⟩

/-- C8 fails as stated: with weights 0.7/0.3 over `maxDuration = 100s`
and a `phaseCountRange` of `{3,3}` for the first template, the first
template's phase Durations sum to 69999999999 ns, not exactly 70 s: the
per-phase division `allocatedTime / phaseCount` truncates (70 s / 3 =
23333333333 ns) and the remainder is lost, so the total is not exactly
`weight × maxDuration` for every phaseCountRange and seed. -/
theorem claim_C8_counterexample :
    generateWorkloadWith 100000000000
      [⟨"A", ⟨3, 3⟩, ⟨1, 1⟩, ⟨0, 1⟩, ⟨7, 10⟩, ⟨⟨1, 1⟩, ⟨1, 1⟩, ⟨1, 1⟩⟩⟩,
       ⟨"B", ⟨1, 1⟩, ⟨1, 1⟩, ⟨0, 1⟩, ⟨3, 10⟩, ⟨⟨1, 1⟩, ⟨1, 1⟩, ⟨1, 1⟩⟩⟩]
      (constRng 0) =
      .ret [⟨"A_0", "constant", 0, 23333333333, 1, 1, 1⟩,
            ⟨"A_1", "constant", 23333333333, 23333333333, 1, 1, 1⟩,
            ⟨"A_2", "constant", 46666666666, 23333333333, 1, 1, 1⟩,
            ⟨"B_0", "constant", 69999999999, 30000000000, 1, 1, 1⟩] none ∧
    durationSumOf (generateWorkloadWith 100000000000
      [⟨"A", ⟨3, 3⟩, ⟨1, 1⟩, ⟨0, 1⟩, ⟨7, 10⟩, ⟨⟨1, 1⟩, ⟨1, 1⟩, ⟨1, 1⟩⟩⟩,
       ⟨"B", ⟨1, 1⟩, ⟨1, 1⟩, ⟨0, 1⟩, ⟨3, 10⟩, ⟨⟨1, 1⟩, ⟨1, 1⟩, ⟨1, 1⟩⟩⟩]
      (constRng 0)) ["A_0", "A_1", "A_2"] = 69999999999 ∧
    ((69999999999 : Int) = 70000000000 → False) := by decide

/-- C8 (amended): time allocation is exactly proportional whenever each
drawn phase count divides its template's allocated time: for two
templates with weights 0.7 and 0.3 over `maxDuration = 100s` and count
ranges `{2,2}` and `{1,1}`, the first template's phase Durations sum to
exactly 70 s and the second's to exactly 30 s, for every seeded stream;
for three templates with all-zero weights over 30 s and count ranges
`{2,2}`, `{5,5}`, `{1,1}`, each template's phases sum to exactly 10 s for
every seeded stream. (When the drawn count does not divide the allocated
time, the sum falls short by the truncation remainder — see the
counterexample.) -/
theorem claim_C8_exactWhenCountsDivide :
    (∀ g : Rng,
      durationSumOf (generateWorkloadWith 100000000000
        [⟨"A", ⟨2, 2⟩, ⟨1, 1⟩, ⟨0, 1⟩, ⟨7, 10⟩, ⟨⟨1, 1⟩, ⟨1, 1⟩, ⟨1, 1⟩⟩⟩,
         ⟨"B", ⟨1, 1⟩, ⟨1, 1⟩, ⟨0, 1⟩, ⟨3, 10⟩, ⟨⟨1, 1⟩, ⟨1, 1⟩, ⟨1, 1⟩⟩⟩] g)
        ["A_0", "A_1"] = 70000000000 ∧
      durationSumOf (generateWorkloadWith 100000000000
        [⟨"A", ⟨2, 2⟩, ⟨1, 1⟩, ⟨0, 1⟩, ⟨7, 10⟩, ⟨⟨1, 1⟩, ⟨1, 1⟩, ⟨1, 1⟩⟩⟩,
         ⟨"B", ⟨1, 1⟩, ⟨1, 1⟩, ⟨0, 1⟩, ⟨3, 10⟩, ⟨⟨1, 1⟩, ⟨1, 1⟩, ⟨1, 1⟩⟩⟩] g)
        ["B_0"] = 30000000000) ∧
    (∀ g : Rng,
      durationSumOf (generateWorkloadWith 30000000000
        [⟨"X", ⟨2, 2⟩, ⟨1, 1⟩, ⟨0, 1⟩, ⟨0, 1⟩, ⟨⟨1, 1⟩, ⟨1, 1⟩, ⟨1, 1⟩⟩⟩,
         ⟨"Y", ⟨5, 5⟩, ⟨1, 1⟩, ⟨0, 1⟩, ⟨0, 1⟩, ⟨⟨1, 1⟩, ⟨1, 1⟩, ⟨1, 1⟩⟩⟩,
         ⟨"Z", ⟨1, 1⟩, ⟨1, 1⟩, ⟨0, 1⟩, ⟨0, 1⟩, ⟨⟨1, 1⟩, ⟨1, 1⟩, ⟨1, 1⟩⟩⟩] g)
        ["X_0", "X_1"] = 10000000000 ∧
      durationSumOf (generateWorkloadWith 30000000000
        [⟨"X", ⟨2, 2⟩, ⟨1, 1⟩, ⟨0, 1⟩, ⟨0, 1⟩, ⟨⟨1, 1⟩, ⟨1, 1⟩, ⟨1, 1⟩⟩⟩,
         ⟨"Y", ⟨5, 5⟩, ⟨1, 1⟩, ⟨0, 1⟩, ⟨0, 1⟩, ⟨⟨1, 1⟩, ⟨1, 1⟩, ⟨1, 1⟩⟩⟩,
         ⟨"Z", ⟨1, 1⟩, ⟨1, 1⟩, ⟨0, 1⟩, ⟨0, 1⟩, ⟨⟨1, 1⟩, ⟨1, 1⟩, ⟨1, 1⟩⟩⟩] g)
        ["Y_0", "Y_1", "Y_2", "Y_3", "Y_4"] = 10000000000 ∧
      durationSumOf (generateWorkloadWith 30000000000
        [⟨"X", ⟨2, 2⟩, ⟨1, 1⟩, ⟨0, 1⟩, ⟨0, 1⟩, ⟨⟨1, 1⟩, ⟨1, 1⟩, ⟨1, 1⟩⟩⟩,
         ⟨"Y", ⟨5, 5⟩, ⟨1, 1⟩, ⟨0, 1⟩, ⟨0, 1⟩, ⟨⟨1, 1⟩, ⟨1, 1⟩, ⟨1, 1⟩⟩⟩,
         ⟨"Z", ⟨1, 1⟩, ⟨1, 1⟩, ⟨0, 1⟩, ⟨0, 1⟩, ⟨⟨1, 1⟩, ⟨1, 1⟩, ⟨1, 1⟩⟩⟩] g)
        ["Z_0"] = 10000000000) := by
  constructor
  · intro g
    rw [gen_scenario_weighted g]
    exact ⟨by decide, by decide⟩
  · intro g
    rw [gen_scenario_equal g]
    exact ⟨by decide, by decide, by decide⟩

end GoLoadgen
